import Mathlib

/-!
# Backend signal support: `src/backend/libpq/pqsignal.c`

A shallow embedding of the two routines of the file:

* `pqinitmask`, which builds the three process-wide signal sets
  `UnBlockSig`, `BlockSig` and `StartupBlockSig`;
* `pqsignal_pm`, which installs a postmaster signal handler through
  `sigaction(2)`.

The C preprocessor configuration (which signal names and flags exist, their
numeric values, whether `WIN32` is defined) is a `Platform` value.  The libc
and kernel primitives the file calls (`sigemptyset`, `sigfillset`,
`sigdelset`, `sigaction`) are modelled after POSIX.
-/

namespace PqSignal

/-! ## Data model -/

/-- A signal set (`sigset_t`): the finite set of signal numbers it holds. -/
abbrev sigset_t := Finset Int

/-- A handler reference (`pqsigfunc`): one of the sentinel values `SIG_DFL`,
`SIG_IGN`, `SIG_ERR`, or the address of a real handler function. -/
inductive pqsigfunc where
  | SIG_DFL
  | SIG_IGN
  | SIG_ERR
  | handler (addr : Nat)
  deriving DecidableEq

/-- The C `struct sigaction`, restricted to the three fields the file sets. -/
structure struct_sigaction where
  sa_handler : pqsigfunc
  sa_mask : sigset_t
  sa_flags : Nat
  deriving DecidableEq

/-- Process-wide state: the three global masks of `pqsignal.c`, together with
the part of the operating-system state that signal handling touches (the set of
currently blocked signals and the table of installed actions). -/
structure State where
  UnBlockSig : sigset_t
  BlockSig : sigset_t
  StartupBlockSig : sigset_t
  /-- The signal mask of the process: the signals currently blocked. -/
  blocked : sigset_t
  /-- The action currently installed for each signal number. -/
  actions : Int → struct_sigaction

/-- The compile-time configuration.  A signal name that the platform does not
define is `none`; `SIGCHLD`, `SA_RESTART` are used unguarded by the source and
so always have a value. -/
structure Platform where
  WIN32 : Bool
  /-- The set that `sigfillset` produces: every signal of the platform. -/
  allSignals : sigset_t
  SIGTRAP : Option Int
  SIGABRT : Option Int
  SIGILL : Option Int
  SIGFPE : Option Int
  SIGSEGV : Option Int
  SIGBUS : Option Int
  SIGSYS : Option Int
  SIGCONT : Option Int
  SIGQUIT : Option Int
  SIGTERM : Option Int
  SIGALRM : Option Int
  SIGCHLD : Int
  SA_RESTART : Nat
  SA_NOCLDSTOP : Option Nat
  /-- The flag under which a signal stays deliverable inside its own handler;
  the source never sets it. -/
  SA_NODEFER : Nat
  /-- The signals the kernel never blocks (SIGKILL and SIGSTOP): it removes
  them from the mask of an action it stores. -/
  unblockable : sigset_t
  /-- The flag bits that `sigaction` adds to the flags word it stores
  (`SA_RESTORER` with glibc on x86; `0` where there is none). -/
  addedFlags : Nat
  /-- The signal numbers for which the operating system lets `sigaction`
  change the action. -/
  sigactionAccepts : Int → Bool
  /-- The `pqsignal` of `src/backend/port/win32/signal.c`, which `pqsignal_pm`
  calls when `WIN32` is defined. -/
  pqsignal : Int → pqsigfunc → State → pqsigfunc × State

/-! ## libc primitives -/

/-- Model of `sigemptyset(&set)`: the set becomes empty. -/
def sigemptyset : sigset_t := ∅

/-- Model of `sigfillset(&set)`: the set becomes the set of all signals. -/
def sigfillset (p : Platform) : sigset_t := p.allSignals

/-- Model of `sigdelset(&set, signo)`: `signo` is removed from the set. -/
def sigdelset (set : sigset_t) (signo : Int) : sigset_t := set.erase signo

/-- Model of `sigismember(&set, signo)`. -/
def sigismember (set : sigset_t) (signo : Int) : Bool := decide (signo ∈ set)

/-- The block `#ifdef NAME  sigdelset(&set, NAME);  #endif`. -/
def ifdef_sigdelset (name : Option Int) (set : sigset_t) : sigset_t :=
  match name with
  | some signo => sigdelset set signo
  | none => set

/-- The copy of `act` that an accepted `sigaction` call stores: the handler as
passed, the mask without the signals the kernel never blocks, and the flags
with the bits the platform adds. -/
def storedAction (p : Platform) (act : struct_sigaction) : struct_sigaction :=
  { sa_handler := act.sa_handler
    sa_mask := act.sa_mask \ p.unblockable
    sa_flags := act.sa_flags ||| p.addedFlags }

/-- Model of `sigaction(signo, &act, &oact)`.  A rejected call (`none`, the C
return value `-1`) installs nothing; an accepted call reports the action that
was installed for `signo` and installs the stored copy of `act` in its
place. -/
def sigaction (p : Platform) (signo : Int) (act : struct_sigaction) (st : State) :
    Option (struct_sigaction × State) :=
  if p.sigactionAccepts signo then
    some (st.actions signo,
      { st with actions := Function.update st.actions signo (storedAction p act) })
  else
    none

/-! ## The routines of `pqsignal.c` -/

/-- The routine `pqinitmask`: initialise `BlockSig`, `UnBlockSig` and
`StartupBlockSig`, statement by statement. -/
def pqinitmask (p : Platform) (st : State) : State :=
  let UnBlockSig := sigemptyset
  -- First set all signals, then clear some.
  let BlockSig := sigfillset p
  let StartupBlockSig := sigfillset p
  -- Unmark those signals that should never be blocked.
  let BlockSig := ifdef_sigdelset p.SIGTRAP BlockSig
  let StartupBlockSig := ifdef_sigdelset p.SIGTRAP StartupBlockSig
  let BlockSig := ifdef_sigdelset p.SIGABRT BlockSig
  let StartupBlockSig := ifdef_sigdelset p.SIGABRT StartupBlockSig
  let BlockSig := ifdef_sigdelset p.SIGILL BlockSig
  let StartupBlockSig := ifdef_sigdelset p.SIGILL StartupBlockSig
  let BlockSig := ifdef_sigdelset p.SIGFPE BlockSig
  let StartupBlockSig := ifdef_sigdelset p.SIGFPE StartupBlockSig
  let BlockSig := ifdef_sigdelset p.SIGSEGV BlockSig
  let StartupBlockSig := ifdef_sigdelset p.SIGSEGV StartupBlockSig
  let BlockSig := ifdef_sigdelset p.SIGBUS BlockSig
  let StartupBlockSig := ifdef_sigdelset p.SIGBUS StartupBlockSig
  let BlockSig := ifdef_sigdelset p.SIGSYS BlockSig
  let StartupBlockSig := ifdef_sigdelset p.SIGSYS StartupBlockSig
  let BlockSig := ifdef_sigdelset p.SIGCONT BlockSig
  let StartupBlockSig := ifdef_sigdelset p.SIGCONT StartupBlockSig
  -- Signals unique to startup
  let StartupBlockSig := ifdef_sigdelset p.SIGQUIT StartupBlockSig
  let StartupBlockSig := ifdef_sigdelset p.SIGTERM StartupBlockSig
  let StartupBlockSig := ifdef_sigdelset p.SIGALRM StartupBlockSig
  { st with UnBlockSig := UnBlockSig, BlockSig := BlockSig, StartupBlockSig := StartupBlockSig }

/-- The `struct sigaction act` that the non-WIN32 branch of `pqsignal_pm`
builds before it calls `sigaction`. -/
def pqsignal_pm_act (p : Platform) (signo : Int) (func : pqsigfunc) (st : State) :
    struct_sigaction :=
  let act : struct_sigaction :=
    if func = pqsigfunc.SIG_IGN ∨ func = pqsigfunc.SIG_DFL then
      -- in these cases, act the same as pqsignal()
      { sa_handler := func, sa_mask := sigemptyset, sa_flags := p.SA_RESTART }
    else
      { sa_handler := func, sa_mask := st.BlockSig, sa_flags := 0 }
  match p.SA_NOCLDSTOP with
  | some noCldStop =>
      if signo = p.SIGCHLD then { act with sa_flags := act.sa_flags ||| noCldStop } else act
  | none => act

/-- The routine `pqsignal_pm`: set up a postmaster signal handler for signal
`signo`; the first component of the result is the C return value. -/
def pqsignal_pm (p : Platform) (signo : Int) (func : pqsigfunc) (st : State) :
    pqsigfunc × State :=
  if p.WIN32 then
    p.pqsignal signo func st
  else
    match sigaction p signo (pqsignal_pm_act p signo func st) st with
    | none => (pqsigfunc.SIG_ERR, st)
    | some (oact, st1) => (oact.sa_handler, st1)

/-! ## Vocabulary of the specification -/

/-- The exclusion list of the specification, as far as the platform defines
it: the numbers of SIGTRAP, SIGABRT, SIGILL, SIGFPE, SIGSEGV, SIGBUS, SIGSYS
and SIGCONT. -/
def exclusionList (p : Platform) : List Int :=
  [p.SIGTRAP, p.SIGABRT, p.SIGILL, p.SIGFPE, p.SIGSEGV, p.SIGBUS, p.SIGSYS,
    p.SIGCONT].reduceOption

/-- The signals unique to startup, as far as the platform defines them: the
numbers of SIGQUIT, SIGTERM and SIGALRM. -/
def startupList (p : Platform) : List Int :=
  [p.SIGQUIT, p.SIGTERM, p.SIGALRM].reduceOption

/-- A flag word has the flag `flag` set: every bit of `flag` is on. -/
def flagSet (flags flag : Nat) : Prop := flags &&& flag = flag

/-- A flag word has the flag `flag` unset: no bit of `flag` is on. -/
def flagUnset (flags flag : Nat) : Prop := flags &&& flag = 0

instance (flags flag : Nat) : Decidable (flagSet flags flag) := by
  unfold flagSet; infer_instance

instance (flags flag : Nat) : Decidable (flagUnset flags flag) := by
  unfold flagUnset; infer_instance

/-- The flags word that the specification assigns to `(func, signo)`:
`SA_RESTART` for `SIG_IGN` and `SIG_DFL` and `0` otherwise, OR-ed with
`SA_NOCLDSTOP` exactly when that flag is defined and `signo` is `SIGCHLD`. -/
def specFlags (p : Platform) (signo : Int) (func : pqsigfunc) : Nat :=
  let restart :=
    if func = pqsigfunc.SIG_IGN ∨ func = pqsigfunc.SIG_DFL then p.SA_RESTART else 0
  match p.SA_NOCLDSTOP with
  | some noCldStop => if signo = p.SIGCHLD then restart ||| noCldStop else restart
  | none => restart

/-- The signal names of the startup list denote signals of the platform, with
numbers different from those of the exclusion list (POSIX: the signal names
expand to distinct values). -/
def Platform.signalNamesDistinct (p : Platform) : Prop :=
  ∀ s ∈ startupList p, s ∈ p.allSignals ∧ s ∉ exclusionList p

instance (p : Platform) : Decidable p.signalNamesDistinct := by
  unfold Platform.signalNamesDistinct; infer_instance

/-- The flag bits of `SA_NOCLDSTOP`, where defined, are not bits of
`SA_RESTART`. -/
def Platform.flagBitsDistinct (p : Platform) : Prop :=
  ∀ f ∈ p.SA_NOCLDSTOP, f &&& p.SA_RESTART = 0

instance (p : Platform) : Decidable p.flagBitsDistinct := by
  unfold Platform.flagBitsDistinct; infer_instance

/-- The flag bits that `sigaction` adds to a stored flags word are not bits of
`SA_RESTART`. -/
def Platform.addedBitsDistinct (p : Platform) : Prop :=
  p.addedFlags &&& p.SA_RESTART = 0

instance (p : Platform) : Decidable p.addedBitsDistinct := by
  unfold Platform.addedBitsDistinct; infer_instance

/-- The flag `SA_NODEFER` has a bit, and shares none with `SA_NOCLDSTOP` or
with the bits that `sigaction` adds to a stored flags word. -/
def Platform.noDeferBitsDistinct (p : Platform) : Prop :=
  p.SA_NODEFER ≠ 0 ∧ p.addedFlags &&& p.SA_NODEFER = 0 ∧
    ∀ f ∈ p.SA_NOCLDSTOP, f &&& p.SA_NODEFER = 0

instance (p : Platform) : Decidable p.noDeferBitsDistinct := by
  unfold Platform.noDeferBitsDistinct; infer_instance

/-! ## A concrete platform and state -/

/-- The signal numbers listed in the header comment of `pqsignal.c` (Linux on
x86), with the flag values of that platform. -/
def linux : Platform where
  WIN32 := false
  allSignals := (List.range 31).foldr (fun n s => insert ((n : Int) + 1) s) ∅
  SIGTRAP := some 5
  SIGABRT := some 6
  SIGILL := some 4
  SIGFPE := some 8
  SIGSEGV := some 11
  SIGBUS := some 7
  SIGSYS := some 31
  SIGCONT := some 18
  SIGQUIT := some 3
  SIGTERM := some 15
  SIGALRM := some 14
  SIGCHLD := 17
  SA_RESTART := 0x10000000
  SA_NOCLDSTOP := some 1
  SA_NODEFER := 0x40000000
  unblockable := {9, 19}
  addedFlags := 0x04000000
  sigactionAccepts := fun s => decide (1 ≤ s ∧ s ≤ 31 ∧ s ≠ 9 ∧ s ≠ 19)
  pqsignal := fun _ _ st => (pqsigfunc.SIG_ERR, st)

/-- A process that has not yet touched its signal state: empty masks, nothing
blocked, every disposition the default. -/
def freshState : State where
  UnBlockSig := ∅
  BlockSig := ∅
  StartupBlockSig := ∅
  blocked := ∅
  actions := fun _ => { sa_handler := pqsigfunc.SIG_DFL, sa_mask := ∅, sa_flags := 0 }

/-! ## Signal delivery

The step model in which the ordering guarantees of the handler installer are
read: a signal is delivered only when it is pending and not in the blocked set
of the process; while its handler runs, the blocked set is the previous one
united with the mask of the installed action and, unless the installed flags
have `SA_NODEFER`, the signal being handled; the previous blocked set is
restored when the handler returns. -/

/-- One activation of a signal handler: the signal it handles and the blocked
set to restore when it returns. -/
structure Frame where
  signo : Int
  saved : sigset_t
  deriving DecidableEq

/-- A running process: its signal state, the signals raised and not yet
delivered, and the handler activations in progress (innermost first). -/
structure Proc where
  st : State
  pending : sigset_t
  stack : List Frame

/-- What can happen to a running process. -/
inductive Event where
  | raise (signo : Int)
  | deliver (signo : Int)
  | handlerReturn
  deriving DecidableEq

/-- What entering the handler of `signo` adds to the blocked set on account
of the signal itself: `signo`, unless the installed flags have `SA_NODEFER`. -/
def selfBlocked (p : Platform) (act : struct_sigaction) (signo : Int) : sigset_t :=
  if flagSet act.sa_flags p.SA_NODEFER then ∅ else {signo}

/-- The process at the start of the handler of `signo`: the signal leaves the
pending set, the blocked set in force is saved, and the mask of the installed
action and (without `SA_NODEFER`) `signo` itself are added to the blocked
set. -/
def enterHandler (p : Platform) (c : Proc) (signo : Int) : Proc :=
  { st := { c.st with
            blocked := c.st.blocked ∪ (c.st.actions signo).sa_mask ∪
              selfBlocked p (c.st.actions signo) signo }
    pending := c.pending.erase signo
    stack := { signo := signo, saved := c.st.blocked } :: c.stack }

/-- One step of the process; `none` when the event cannot happen in `c`.  A
signal whose disposition is `SIG_IGN` or `SIG_DFL` is consumed without running
a handler. -/
def step (p : Platform) (c : Proc) : Event → Option Proc
  | Event.raise signo => some { c with pending := insert signo c.pending }
  | Event.deliver signo =>
    if signo ∈ c.pending ∧ signo ∉ c.st.blocked then
      if (c.st.actions signo).sa_handler = pqsigfunc.SIG_IGN ∨
          (c.st.actions signo).sa_handler = pqsigfunc.SIG_DFL then
        some { c with pending := c.pending.erase signo }
      else
        some (enterHandler p c signo)
    else
      none
  | Event.handlerReturn =>
    match c.stack with
    | [] => none
    | fr :: rest => some { c with st := { c.st with blocked := fr.saved }, stack := rest }

/-- The signals delivered, in order, while the handler activation at stack
depth `depth` is executing: the events are played from `c`, an event that
cannot happen is skipped, and the play stops when that activation returns. -/
def deliveredWhile (p : Platform) (depth : Nat) : Proc → List Event → List Int
  | _, [] => []
  | c, ev :: evs =>
    match step p c ev with
    | none => deliveredWhile p depth c evs
    | some c1 =>
      if c1.stack.length < depth then []
      else
        match ev with
        | Event.deliver signo => signo :: deliveredWhile p depth c1 evs
        | _ => deliveredWhile p depth c1 evs

/-- The process right after `pqinitmask` and a call `pqsignal_pm(X, func)`,
with `pend` pending and the handler activations `stk` in progress. -/
def procAfterInstall (p : Platform) (st : State) (X : Int) (func : pqsigfunc)
    (pend : sigset_t) (stk : List Frame) : Proc :=
  { st := (pqsignal_pm p X func (pqinitmask p st)).2, pending := pend, stack := stk }

/-- A play used to exercise the step model: SIGQUIT (3) is re-raised inside its
handler, SIGSEGV (11), SIGTERM (15) and SIGKILL (9) arrive, handlers return. -/
def samplePlay : List Event :=
  [Event.raise 3, Event.deliver 3, Event.raise 11, Event.deliver 11, Event.raise 15,
    Event.deliver 15, Event.raise 9, Event.deliver 9, Event.handlerReturn, Event.deliver 3,
    Event.handlerReturn, Event.deliver 3]

/-- Modelled from the spec: the WIN32 `pqsignal` of
`src/backend/port/win32/signal.c`, which is not among the sources, as "the
portable best-effort handler-installation primitive": it records `func` as the
handler of `signo` and returns the handler recorded before.  It only serves to
instantiate `Platform.pqsignal` on a sample WIN32 platform. -/
def samplePqsignal (signo : Int) (func : pqsigfunc) (st : State) : pqsigfunc × State :=
  ((st.actions signo).sa_handler,
    { st with
      actions := Function.update st.actions signo
        { st.actions signo with sa_handler := func } })

/-- A sample platform on which `WIN32` is defined. -/
def win32 : Platform :=
  { linux with WIN32 := true, pqsignal := samplePqsignal }

/-! ## Helper lemmas -/

theorem mem_ifdef_sigdelset (name : Option Int) (set : sigset_t) (sig : Int) :
    sig ∈ ifdef_sigdelset name set ↔ sig ∈ set ∧ some sig ≠ name := by
  cases name with
  | none => simp [ifdef_sigdelset]
  | some s =>
    simp only [ifdef_sigdelset, sigdelset, Finset.mem_erase, ne_eq, Option.some.injEq]
    tauto

theorem mem_exclusionList (p : Platform) (sig : Int) :
    sig ∈ exclusionList p ↔
      some sig = p.SIGTRAP ∨ some sig = p.SIGABRT ∨ some sig = p.SIGILL ∨
      some sig = p.SIGFPE ∨ some sig = p.SIGSEGV ∨ some sig = p.SIGBUS ∨
      some sig = p.SIGSYS ∨ some sig = p.SIGCONT := by
  simp [exclusionList, List.reduceOption_mem_iff]

theorem mem_startupList (p : Platform) (sig : Int) :
    sig ∈ startupList p ↔
      some sig = p.SIGQUIT ∨ some sig = p.SIGTERM ∨ some sig = p.SIGALRM := by
  simp [startupList, List.reduceOption_mem_iff]

theorem mem_pqinitmask_BlockSig (p : Platform) (st : State) (sig : Int) :
    sig ∈ (pqinitmask p st).BlockSig ↔ sig ∈ sigfillset p ∧ sig ∉ exclusionList p := by
  simp only [pqinitmask, mem_ifdef_sigdelset, mem_exclusionList]
  tauto

theorem mem_pqinitmask_StartupBlockSig (p : Platform) (st : State) (sig : Int) :
    sig ∈ (pqinitmask p st).StartupBlockSig ↔
      sig ∈ sigfillset p ∧ sig ∉ exclusionList p ∧ sig ∉ startupList p := by
  simp only [pqinitmask, mem_ifdef_sigdelset, mem_exclusionList, mem_startupList]
  tauto

theorem pqinitmask_pqinitmask (p : Platform) (st : State) :
    pqinitmask p (pqinitmask p st) = pqinitmask p st := rfl

theorem iterate_pqinitmask (p : Platform) (st : State) (n : Nat) :
    (pqinitmask p)^[n + 1] st = pqinitmask p st := by
  induction n with
  | zero => rfl
  | succ k ih => rw [Function.iterate_succ_apply', ih, pqinitmask_pqinitmask]

theorem or_land_left (a b : Nat) : (a ||| b) &&& a = a := by
  apply Nat.eq_of_testBit_eq
  intro i
  simp only [Nat.testBit_and, Nat.testBit_or]
  cases a.testBit i <;> simp

theorem or_land_right (a b : Nat) : (a ||| b) &&& b = b := by
  apply Nat.eq_of_testBit_eq
  intro i
  simp only [Nat.testBit_and, Nat.testBit_or]
  cases b.testBit i <;> simp

theorem or_land_zero (a b g : Nat) (h1 : a &&& g = 0) (h2 : b &&& g = 0) :
    (a ||| b) &&& g = 0 := by
  apply Nat.eq_of_testBit_eq
  intro i
  have e1 := congrArg (fun n => Nat.testBit n i) h1
  have e2 := congrArg (fun n => Nat.testBit n i) h2
  simp only [Nat.testBit_and, Nat.zero_testBit] at e1 e2
  simp only [Nat.testBit_and, Nat.testBit_or, Nat.zero_testBit]
  cases hg : g.testBit i <;> simp_all

theorem flagSet_or_left (a b f : Nat) (h : flagSet a f) : flagSet (a ||| b) f := by
  unfold flagSet at h ⊢
  apply Nat.eq_of_testBit_eq
  intro i
  have e := congrArg (fun n => Nat.testBit n i) h
  simp only [Nat.testBit_and] at e
  simp only [Nat.testBit_and, Nat.testBit_or]
  cases hf : f.testBit i <;> simp_all

/-! ## The signal-set initialiser -/

/-- C1: for every platform configuration and every starting state, after
`pqinitmask` a signal number is a member of `BlockSig` exactly when it is a
signal of the platform that is not one of the defined exclusion-list signals;
`BlockSig` is the full signal set minus the defined exclusion-list signals. -/
theorem pqinitmask_BlockSig_eq (p : Platform) (st : State) :
    (∀ sig : Int, sig ∈ (pqinitmask p st).BlockSig ↔
        sig ∈ sigfillset p ∧ sig ∉ exclusionList p) ∧
      (pqinitmask p st).BlockSig = sigfillset p \ (exclusionList p).toFinset := by
  refine ⟨mem_pqinitmask_BlockSig p st, ?_⟩
  ext sig
  rw [mem_pqinitmask_BlockSig, Finset.mem_sdiff, List.mem_toFinset]

/-- C2: every exclusion-list signal `S` that the platform defines is, after
`pqinitmask`, a member of neither `BlockSig` nor `StartupBlockSig`. -/
theorem pqinitmask_exclusion_absent (p : Platform) (st : State) (S : Int)
    (hS : S ∈ exclusionList p) :
    S ∉ (pqinitmask p st).BlockSig ∧ S ∉ (pqinitmask p st).StartupBlockSig := by
  rw [mem_pqinitmask_BlockSig, mem_pqinitmask_StartupBlockSig]
  tauto

theorem pqinitmask_exclusion_absent_witness :
    (11 : Int) ∈ exclusionList linux ∧
      ((11 : Int) ∉ (pqinitmask linux freshState).BlockSig ∧
        (11 : Int) ∉ (pqinitmask linux freshState).StartupBlockSig) :=
  ⟨by decide, pqinitmask_exclusion_absent linux freshState 11 (by decide)⟩

/-- C3: after `pqinitmask`, `StartupBlockSig` is `BlockSig` with exactly the
defined signals among SIGQUIT, SIGTERM and SIGALRM removed: those are absent
from `StartupBlockSig` and present in `BlockSig`, and every other signal is in
`StartupBlockSig` exactly when it is in `BlockSig`. -/
theorem pqinitmask_StartupBlockSig_eq (p : Platform) (st : State)
    (hp : p.signalNamesDistinct) :
    (pqinitmask p st).StartupBlockSig =
        (pqinitmask p st).BlockSig \ (startupList p).toFinset ∧
      (∀ sig : Int, sig ∈ startupList p →
        sig ∉ (pqinitmask p st).StartupBlockSig ∧ sig ∈ (pqinitmask p st).BlockSig) ∧
      (∀ sig : Int, sig ∉ startupList p →
        (sig ∈ (pqinitmask p st).StartupBlockSig ↔ sig ∈ (pqinitmask p st).BlockSig)) := by
  refine ⟨?_, ?_, ?_⟩
  · ext sig
    rw [Finset.mem_sdiff, List.mem_toFinset, mem_pqinitmask_BlockSig,
      mem_pqinitmask_StartupBlockSig]
    tauto
  · intro sig hsig
    rw [mem_pqinitmask_BlockSig, mem_pqinitmask_StartupBlockSig]
    have h := hp sig hsig
    exact ⟨fun hmem => hmem.2.2 hsig, h⟩
  · intro sig hsig
    rw [mem_pqinitmask_BlockSig, mem_pqinitmask_StartupBlockSig]
    tauto

theorem pqinitmask_StartupBlockSig_eq_witness :
    linux.signalNamesDistinct ∧
      ((pqinitmask linux freshState).StartupBlockSig =
          (pqinitmask linux freshState).BlockSig \ (startupList linux).toFinset ∧
        (∀ sig : Int, sig ∈ startupList linux →
          sig ∉ (pqinitmask linux freshState).StartupBlockSig ∧
            sig ∈ (pqinitmask linux freshState).BlockSig) ∧
        (∀ sig : Int, sig ∉ startupList linux →
          (sig ∈ (pqinitmask linux freshState).StartupBlockSig ↔
            sig ∈ (pqinitmask linux freshState).BlockSig))) :=
  ⟨by decide, pqinitmask_StartupBlockSig_eq linux freshState (by decide)⟩

/-- C4: for every platform configuration and every starting contents of
`UnBlockSig`, after `pqinitmask` the set `UnBlockSig` contains no signal. -/
theorem pqinitmask_UnBlockSig_empty (p : Platform) (st : State) :
    (pqinitmask p st).UnBlockSig = ∅ ∧
      ∀ sig : Int, sigismember (pqinitmask p st).UnBlockSig sig = false := by
  refine ⟨rfl, fun sig => ?_⟩
  simp [sigismember, pqinitmask, sigemptyset]

/-- C5: `pqinitmask` is idempotent: for every starting state and every
`N ≥ 1`, calling it `N` times leaves `UnBlockSig`, `BlockSig` and
`StartupBlockSig` the same as calling it once. -/
theorem pqinitmask_idempotent (p : Platform) (st : State) (N : Nat) (hN : 1 ≤ N) :
    ((pqinitmask p)^[N] st).UnBlockSig = (pqinitmask p st).UnBlockSig ∧
      ((pqinitmask p)^[N] st).BlockSig = (pqinitmask p st).BlockSig ∧
      ((pqinitmask p)^[N] st).StartupBlockSig = (pqinitmask p st).StartupBlockSig := by
  obtain ⟨n, rfl⟩ : ∃ n, N = n + 1 := ⟨N - 1, by omega⟩
  rw [iterate_pqinitmask]
  exact ⟨rfl, rfl, rfl⟩

theorem pqinitmask_idempotent_witness :
    1 ≤ 3 ∧
      (((pqinitmask linux)^[3] { freshState with UnBlockSig := {10, 23} }).UnBlockSig =
          (pqinitmask linux { freshState with UnBlockSig := {10, 23} }).UnBlockSig ∧
        ((pqinitmask linux)^[3] { freshState with UnBlockSig := {10, 23} }).BlockSig =
          (pqinitmask linux { freshState with UnBlockSig := {10, 23} }).BlockSig ∧
        ((pqinitmask linux)^[3] { freshState with UnBlockSig := {10, 23} }).StartupBlockSig =
          (pqinitmask linux { freshState with UnBlockSig := {10, 23} }).StartupBlockSig) :=
  ⟨by decide, pqinitmask_idempotent linux { freshState with UnBlockSig := {10, 23} } 3
    (by decide)⟩

/-! ## The handler installer -/

theorem pqsignal_pm_accepted (p : Platform) (signo : Int) (func : pqsigfunc) (st : State)
    (hwin : p.WIN32 = false) (hok : p.sigactionAccepts signo = true) :
    pqsignal_pm p signo func st =
      ((st.actions signo).sa_handler,
        { st with
          actions := Function.update st.actions signo
            (storedAction p (pqsignal_pm_act p signo func st)) }) := by
  simp [pqsignal_pm, sigaction, hwin, hok]

theorem pqsignal_pm_rejected (p : Platform) (signo : Int) (func : pqsigfunc) (st : State)
    (hwin : p.WIN32 = false) (hrej : p.sigactionAccepts signo = false) :
    pqsignal_pm p signo func st = (pqsigfunc.SIG_ERR, st) := by
  simp [pqsignal_pm, sigaction, hwin, hrej]

theorem pqsignal_pm_installed (p : Platform) (signo : Int) (func : pqsigfunc) (st : State)
    (hwin : p.WIN32 = false) (hok : p.sigactionAccepts signo = true) :
    (pqsignal_pm p signo func st).2.actions signo =
      storedAction p (pqsignal_pm_act p signo func st) := by
  rw [pqsignal_pm_accepted p signo func st hwin hok]
  simp

theorem storedAction_handler (p : Platform) (act : struct_sigaction) :
    (storedAction p act).sa_handler = act.sa_handler := rfl

theorem storedAction_mask (p : Platform) (act : struct_sigaction) :
    (storedAction p act).sa_mask = act.sa_mask \ p.unblockable := rfl

theorem storedAction_flags (p : Platform) (act : struct_sigaction) :
    (storedAction p act).sa_flags = act.sa_flags ||| p.addedFlags := rfl

theorem pqsignal_pm_act_handler (p : Platform) (signo : Int) (func : pqsigfunc) (st : State) :
    (pqsignal_pm_act p signo func st).sa_handler = func := by
  unfold pqsignal_pm_act
  cases p.SA_NOCLDSTOP <;> simp only <;> split_ifs <;> rfl

theorem pqsignal_pm_act_mask (p : Platform) (signo : Int) (func : pqsigfunc) (st : State) :
    (pqsignal_pm_act p signo func st).sa_mask =
      if func = pqsigfunc.SIG_IGN ∨ func = pqsigfunc.SIG_DFL then sigemptyset
      else st.BlockSig := by
  unfold pqsignal_pm_act
  cases p.SA_NOCLDSTOP <;> simp only <;> split_ifs <;> rfl

theorem pqsignal_pm_act_flags (p : Platform) (signo : Int) (func : pqsigfunc) (st : State) :
    (pqsignal_pm_act p signo func st).sa_flags =
      match p.SA_NOCLDSTOP with
      | some noCldStop =>
          if signo = p.SIGCHLD then
            (if func = pqsigfunc.SIG_IGN ∨ func = pqsigfunc.SIG_DFL then p.SA_RESTART
              else 0) ||| noCldStop
          else
            (if func = pqsigfunc.SIG_IGN ∨ func = pqsigfunc.SIG_DFL then p.SA_RESTART
              else 0)
      | none =>
          if func = pqsigfunc.SIG_IGN ∨ func = pqsigfunc.SIG_DFL then p.SA_RESTART else 0 := by
  unfold pqsignal_pm_act
  cases p.SA_NOCLDSTOP <;> simp only <;> split_ifs <;> rfl

/-- C6 (as amended): on a non-WIN32 platform, for every signal number `X` that
the OS accepts and every `func` that is neither `SIG_IGN` nor `SIG_DFL`, the
call `pqsignal_pm(X, func)` passes to `sigaction` an action whose mask is the
current `BlockSig`, it succeeds, and the action then installed for `X` has
handler `func`, handler mask equal to the current `BlockSig` without the
signals the kernel never blocks, and the `SA_RESTART` flag unset. -/
theorem pqsignal_pm_real_handler (p : Platform) (X : Int) (func : pqsigfunc) (st : State)
    (hwin : p.WIN32 = false) (hok : p.sigactionAccepts X = true)
    (hign : func ≠ pqsigfunc.SIG_IGN) (hdfl : func ≠ pqsigfunc.SIG_DFL)
    (hbits : p.flagBitsDistinct) (hadded : p.addedBitsDistinct) :
    (sigaction p X (pqsignal_pm_act p X func st) st).isSome = true ∧
      (pqsignal_pm_act p X func st).sa_mask = st.BlockSig ∧
      ((pqsignal_pm p X func st).2.actions X).sa_handler = func ∧
      ((pqsignal_pm p X func st).2.actions X).sa_mask = st.BlockSig \ p.unblockable ∧
      ((pqsignal_pm p X func st).2.actions X).sa_mask =
        (pqsignal_pm p X func st).2.BlockSig \ p.unblockable ∧
      flagUnset ((pqsignal_pm p X func st).2.actions X).sa_flags p.SA_RESTART := by
  have hkind : ¬(func = pqsigfunc.SIG_IGN ∨ func = pqsigfunc.SIG_DFL) := by tauto
  have hblock : (pqsignal_pm p X func st).2.BlockSig = st.BlockSig := by
    rw [pqsignal_pm_accepted p X func st hwin hok]
  have hmask : (pqsignal_pm_act p X func st).sa_mask = st.BlockSig := by
    rw [pqsignal_pm_act_mask, if_neg hkind]
  rw [hblock, pqsignal_pm_installed p X func st hwin hok, storedAction_handler,
    storedAction_mask, storedAction_flags, pqsignal_pm_act_handler, hmask,
    pqsignal_pm_act_flags]
  refine ⟨by simp [sigaction, hok], rfl, rfl, rfl, rfl, ?_⟩
  unfold flagUnset
  apply or_land_zero _ _ _ _ hadded
  cases hf : p.SA_NOCLDSTOP with
  | none => simp [if_neg hkind]
  | some f =>
    have hdis : f &&& p.SA_RESTART = 0 := hbits f (by simp [hf])
    by_cases hc : X = p.SIGCHLD <;> simp [hc, hdis, if_neg hkind]

theorem pqsignal_pm_real_handler_witness :
    linux.WIN32 = false ∧ linux.sigactionAccepts 17 = true ∧
      pqsigfunc.handler 4096 ≠ pqsigfunc.SIG_IGN ∧
      pqsigfunc.handler 4096 ≠ pqsigfunc.SIG_DFL ∧ linux.flagBitsDistinct ∧
      linux.addedBitsDistinct ∧
      ((sigaction linux 17
          (pqsignal_pm_act linux 17 (pqsigfunc.handler 4096) (pqinitmask linux freshState))
          (pqinitmask linux freshState)).isSome = true ∧
        (pqsignal_pm_act linux 17 (pqsigfunc.handler 4096)
          (pqinitmask linux freshState)).sa_mask = (pqinitmask linux freshState).BlockSig ∧
        ((pqsignal_pm linux 17 (pqsigfunc.handler 4096)
          (pqinitmask linux freshState)).2.actions 17).sa_handler = pqsigfunc.handler 4096 ∧
        ((pqsignal_pm linux 17 (pqsigfunc.handler 4096)
          (pqinitmask linux freshState)).2.actions 17).sa_mask =
            (pqinitmask linux freshState).BlockSig \ linux.unblockable ∧
        ((pqsignal_pm linux 17 (pqsigfunc.handler 4096)
          (pqinitmask linux freshState)).2.actions 17).sa_mask =
            (pqsignal_pm linux 17 (pqsigfunc.handler 4096)
              (pqinitmask linux freshState)).2.BlockSig \ linux.unblockable ∧
        flagUnset ((pqsignal_pm linux 17 (pqsigfunc.handler 4096)
          (pqinitmask linux freshState)).2.actions 17).sa_flags linux.SA_RESTART) :=
  ⟨rfl, by decide, by decide, by decide, by decide, by decide,
    pqsignal_pm_real_handler linux 17 (pqsigfunc.handler 4096) (pqinitmask linux freshState)
      rfl (by decide) (by decide) (by decide) (by decide) (by decide)⟩

/-- C6 (as stated) fails: on Linux, after `pqinitmask`, a successful
`pqsignal_pm(SIGCHLD, func)` with a real callback leaves an installed handler
mask different from `BlockSig`, because `BlockSig` holds SIGKILL and SIGSTOP
and the stored mask does not. -/
theorem pqsignal_pm_real_handler_mask_counterexample :
    linux.WIN32 = false ∧ linux.sigactionAccepts 17 = true ∧
      (pqsignal_pm linux 17 (pqsigfunc.handler 4096) (pqinitmask linux freshState)).1 ≠
        pqsigfunc.SIG_ERR ∧
      (9 : Int) ∈ (pqsignal_pm linux 17 (pqsigfunc.handler 4096)
        (pqinitmask linux freshState)).2.BlockSig ∧
      (9 : Int) ∉ ((pqsignal_pm linux 17 (pqsigfunc.handler 4096)
        (pqinitmask linux freshState)).2.actions 17).sa_mask ∧
      ((pqsignal_pm linux 17 (pqsigfunc.handler 4096)
        (pqinitmask linux freshState)).2.actions 17).sa_mask ≠
          (pqsignal_pm linux 17 (pqsigfunc.handler 4096)
            (pqinitmask linux freshState)).2.BlockSig := by
  decide

/-- C7: on a non-WIN32 platform, for every signal number the OS accepts, the
call `pqsignal_pm(signo, SIG_IGN)` or `pqsignal_pm(signo, SIG_DFL)` succeeds
and the action then installed for `signo` has an empty handler mask, whatever
`BlockSig` contains, and the `SA_RESTART` flag set. -/
theorem pqsignal_pm_ign_dfl (p : Platform) (signo : Int) (func : pqsigfunc) (st : State)
    (hwin : p.WIN32 = false) (hok : p.sigactionAccepts signo = true)
    (hkind : func = pqsigfunc.SIG_IGN ∨ func = pqsigfunc.SIG_DFL) :
    (sigaction p signo (pqsignal_pm_act p signo func st) st).isSome = true ∧
      ((pqsignal_pm p signo func st).2.actions signo).sa_handler = func ∧
      ((pqsignal_pm p signo func st).2.actions signo).sa_mask = ∅ ∧
      flagSet ((pqsignal_pm p signo func st).2.actions signo).sa_flags p.SA_RESTART := by
  rw [pqsignal_pm_installed p signo func st hwin hok, storedAction_handler,
    storedAction_mask, storedAction_flags, pqsignal_pm_act_handler,
    pqsignal_pm_act_mask, pqsignal_pm_act_flags, if_pos hkind]
  refine ⟨by simp [sigaction, hok], rfl, by simp [sigemptyset], ?_⟩
  apply flagSet_or_left
  unfold flagSet
  cases p.SA_NOCLDSTOP with
  | none => simp [if_pos hkind]
  | some f => by_cases hc : signo = p.SIGCHLD <;> simp [hc, or_land_left, if_pos hkind]

theorem pqsignal_pm_ign_dfl_witness :
    linux.WIN32 = false ∧ linux.sigactionAccepts 17 = true ∧
      (pqsigfunc.SIG_IGN = pqsigfunc.SIG_IGN ∨ pqsigfunc.SIG_IGN = pqsigfunc.SIG_DFL) ∧
      ((sigaction linux 17
          (pqsignal_pm_act linux 17 pqsigfunc.SIG_IGN (pqinitmask linux freshState))
          (pqinitmask linux freshState)).isSome = true ∧
        ((pqsignal_pm linux 17 pqsigfunc.SIG_IGN
          (pqinitmask linux freshState)).2.actions 17).sa_handler = pqsigfunc.SIG_IGN ∧
        ((pqsignal_pm linux 17 pqsigfunc.SIG_IGN
          (pqinitmask linux freshState)).2.actions 17).sa_mask = ∅ ∧
        flagSet ((pqsignal_pm linux 17 pqsigfunc.SIG_IGN
          (pqinitmask linux freshState)).2.actions 17).sa_flags linux.SA_RESTART) :=
  ⟨rfl, by decide, Or.inl rfl,
    pqsignal_pm_ign_dfl linux 17 pqsigfunc.SIG_IGN (pqinitmask linux freshState)
      rfl (by decide) (Or.inl rfl)⟩

/-- C8: on a platform that defines `SA_NOCLDSTOP`, for every `func` the action
that `pqsignal_pm(SIGCHLD, func)` passes to `sigaction` has flags equal to the
restart flag selected by the disposition kind OR-ed with `SA_NOCLDSTOP`, so
the `SA_NOCLDSTOP` flag is set; it is set in the installed action too. -/
theorem pqsignal_pm_sigchld_nocldstop (p : Platform) (func : pqsigfunc) (st : State)
    (noCldStop : Nat) (hdef : p.SA_NOCLDSTOP = some noCldStop) :
    (pqsignal_pm_act p p.SIGCHLD func st).sa_flags =
        (if func = pqsigfunc.SIG_IGN ∨ func = pqsigfunc.SIG_DFL then p.SA_RESTART else 0) |||
          noCldStop ∧
      flagSet (pqsignal_pm_act p p.SIGCHLD func st).sa_flags noCldStop ∧
      (p.WIN32 = false → p.sigactionAccepts p.SIGCHLD = true →
        flagSet ((pqsignal_pm p p.SIGCHLD func st).2.actions p.SIGCHLD).sa_flags noCldStop) := by
  have hflags : (pqsignal_pm_act p p.SIGCHLD func st).sa_flags =
      (if func = pqsigfunc.SIG_IGN ∨ func = pqsigfunc.SIG_DFL then p.SA_RESTART else 0) |||
        noCldStop := by
    rw [pqsignal_pm_act_flags, hdef]
    simp
  have hset : flagSet (pqsignal_pm_act p p.SIGCHLD func st).sa_flags noCldStop := by
    unfold flagSet
    rw [hflags]
    exact or_land_right _ _
  refine ⟨hflags, hset, fun hwin hok => ?_⟩
  rw [pqsignal_pm_installed p p.SIGCHLD func st hwin hok, storedAction_flags]
  exact flagSet_or_left _ _ _ hset

theorem pqsignal_pm_sigchld_nocldstop_witness :
    linux.SA_NOCLDSTOP = some 1 ∧
      ((pqsignal_pm_act linux linux.SIGCHLD (pqsigfunc.handler 4096)
          (pqinitmask linux freshState)).sa_flags =
          (if pqsigfunc.handler 4096 = pqsigfunc.SIG_IGN ∨
              pqsigfunc.handler 4096 = pqsigfunc.SIG_DFL then linux.SA_RESTART else 0) ||| 1 ∧
        flagSet (pqsignal_pm_act linux linux.SIGCHLD (pqsigfunc.handler 4096)
          (pqinitmask linux freshState)).sa_flags 1 ∧
        flagSet ((pqsignal_pm linux linux.SIGCHLD (pqsigfunc.handler 4096)
          (pqinitmask linux freshState)).2.actions linux.SIGCHLD).sa_flags 1) :=
  ⟨rfl,
    (pqsignal_pm_sigchld_nocldstop linux (pqsigfunc.handler 4096)
      (pqinitmask linux freshState) 1 rfl).1,
    (pqsignal_pm_sigchld_nocldstop linux (pqsigfunc.handler 4096)
      (pqinitmask linux freshState) 1 rfl).2.1,
    (pqsignal_pm_sigchld_nocldstop linux (pqsigfunc.handler 4096)
      (pqinitmask linux freshState) 1 rfl).2.2 rfl (by decide)⟩

/-- C9: when the `sigaction` call succeeds, `pqsignal_pm(signo, func)` returns
the handler that was installed for `signo` immediately before the call; a
first install on a signal whose disposition is still the default returns
`SIG_DFL`, and installing `func` and then `g` on the same signal makes the
second call return `func`. -/
theorem pqsignal_pm_returns_previous (p : Platform) (signo : Int) (func : pqsigfunc)
    (st : State) (hwin : p.WIN32 = false) (hok : p.sigactionAccepts signo = true) :
    (pqsignal_pm p signo func st).1 = (st.actions signo).sa_handler ∧
      ((st.actions signo).sa_handler = pqsigfunc.SIG_DFL →
        (pqsignal_pm p signo func st).1 = pqsigfunc.SIG_DFL) ∧
      (∀ g : pqsigfunc, (pqsignal_pm p signo g (pqsignal_pm p signo func st).2).1 = func) := by
  have hret : ∀ (h : pqsigfunc) (s : State),
      (pqsignal_pm p signo h s).1 = (s.actions signo).sa_handler := by
    intro h s
    rw [pqsignal_pm_accepted p signo h s hwin hok]
  refine ⟨hret func st, fun hdfl => (hret func st).trans hdfl, fun g => ?_⟩
  rw [hret g, pqsignal_pm_installed p signo func st hwin hok, storedAction_handler,
    pqsignal_pm_act_handler]

theorem pqsignal_pm_returns_previous_witness :
    linux.WIN32 = false ∧ linux.sigactionAccepts 3 = true ∧
      ((pqsignal_pm linux 3 (pqsigfunc.handler 4096) (pqinitmask linux freshState)).1 =
          ((pqinitmask linux freshState).actions 3).sa_handler ∧
        (pqsignal_pm linux 3 (pqsigfunc.handler 4096) (pqinitmask linux freshState)).1 =
          pqsigfunc.SIG_DFL ∧
        (∀ g : pqsigfunc,
          (pqsignal_pm linux 3 g
            (pqsignal_pm linux 3 (pqsigfunc.handler 4096)
              (pqinitmask linux freshState)).2).1 = pqsigfunc.handler 4096)) :=
  ⟨rfl, by decide,
    (pqsignal_pm_returns_previous linux 3 (pqsigfunc.handler 4096)
      (pqinitmask linux freshState) rfl (by decide)).1,
    (pqsignal_pm_returns_previous linux 3 (pqsigfunc.handler 4096)
      (pqinitmask linux freshState) rfl (by decide)).2.1 rfl,
    (pqsignal_pm_returns_previous linux 3 (pqsigfunc.handler 4096)
      (pqinitmask linux freshState) rfl (by decide)).2.2⟩

/-- C10: when the `sigaction` call fails, `pqsignal_pm` returns `SIG_ERR` and
the state is unchanged: `UnBlockSig`, `BlockSig`, `StartupBlockSig` and the
installed action of every signal are the same as before the call. -/
theorem pqsignal_pm_failure (p : Platform) (signo : Int) (func : pqsigfunc) (st : State)
    (hwin : p.WIN32 = false) (hrej : p.sigactionAccepts signo = false) :
    sigaction p signo (pqsignal_pm_act p signo func st) st = none ∧
      (pqsignal_pm p signo func st).1 = pqsigfunc.SIG_ERR ∧
      (pqsignal_pm p signo func st).2 = st ∧
      (pqsignal_pm p signo func st).2.UnBlockSig = st.UnBlockSig ∧
      (pqsignal_pm p signo func st).2.BlockSig = st.BlockSig ∧
      (pqsignal_pm p signo func st).2.StartupBlockSig = st.StartupBlockSig ∧
      (∀ sig : Int, (pqsignal_pm p signo func st).2.actions sig = st.actions sig) := by
  rw [pqsignal_pm_rejected p signo func st hwin hrej]
  exact ⟨by simp [sigaction, hrej], rfl, rfl, rfl, rfl, rfl, fun _ => rfl⟩

theorem pqsignal_pm_failure_witness :
    linux.WIN32 = false ∧ linux.sigactionAccepts (-1) = false ∧
      (sigaction linux (-1)
          (pqsignal_pm_act linux (-1) (pqsigfunc.handler 4096) (pqinitmask linux freshState))
          (pqinitmask linux freshState) = none ∧
        (pqsignal_pm linux (-1) (pqsigfunc.handler 4096) (pqinitmask linux freshState)).1 =
          pqsigfunc.SIG_ERR ∧
        (pqsignal_pm linux (-1) (pqsigfunc.handler 4096) (pqinitmask linux freshState)).2 =
          pqinitmask linux freshState ∧
        (pqsignal_pm linux (-1) (pqsigfunc.handler 4096)
          (pqinitmask linux freshState)).2.UnBlockSig =
            (pqinitmask linux freshState).UnBlockSig ∧
        (pqsignal_pm linux (-1) (pqsigfunc.handler 4096)
          (pqinitmask linux freshState)).2.BlockSig =
            (pqinitmask linux freshState).BlockSig ∧
        (pqsignal_pm linux (-1) (pqsigfunc.handler 4096)
          (pqinitmask linux freshState)).2.StartupBlockSig =
            (pqinitmask linux freshState).StartupBlockSig ∧
        (∀ sig : Int,
          (pqsignal_pm linux (-1) (pqsigfunc.handler 4096)
            (pqinitmask linux freshState)).2.actions sig =
              (pqinitmask linux freshState).actions sig)) :=
  ⟨rfl, by decide,
    pqsignal_pm_failure linux (-1) (pqsigfunc.handler 4096) (pqinitmask linux freshState)
      rfl (by decide)⟩

/-! ## Handler execution in the step model -/

theorem deliveredWhile_not_blocked (p : Platform) (B : sigset_t) (base : List Frame) :
    ∀ (evs : List Event) (top : List Frame) (c : Proc),
      c.stack = top ++ base → B ⊆ c.st.blocked → (∀ fr ∈ top, B ⊆ fr.saved) →
      ∀ sig ∈ deliveredWhile p base.length c evs, sig ∉ B := by
  intro evs
  induction evs with
  | nil => intro top c _ _ _ sig hsig; simp [deliveredWhile] at hsig
  | cons ev evs ih =>
    intro top c hstack hB htop sig hsig
    cases ev with
    | raise s =>
      simp only [deliveredWhile, step] at hsig
      split_ifs at hsig with hlen
      · simp at hsig
      · refine ih top _ ?_ ?_ ?_ sig hsig
        exacts [hstack, hB, htop]
    | deliver s =>
      simp only [deliveredWhile, step] at hsig
      by_cases hguard : s ∈ c.pending ∧ s ∉ c.st.blocked
      · have hsB : s ∉ B := fun h => hguard.2 (hB h)
        rw [if_pos hguard] at hsig
        by_cases hkind : (c.st.actions s).sa_handler = pqsigfunc.SIG_IGN ∨
            (c.st.actions s).sa_handler = pqsigfunc.SIG_DFL
        · rw [if_pos hkind] at hsig
          simp only at hsig
          split_ifs at hsig with hlen
          · simp at hsig
          · rcases List.mem_cons.mp hsig with heq | hrest
            · rw [heq]; exact hsB
            · refine ih top _ ?_ ?_ ?_ sig hrest
              exacts [hstack, hB, htop]
        · rw [if_neg hkind] at hsig
          simp only at hsig
          split_ifs at hsig with hlen
          · simp at hsig
          · rcases List.mem_cons.mp hsig with heq | hrest
            · rw [heq]; exact hsB
            · refine ih ({ signo := s, saved := c.st.blocked } :: top) _ ?_ ?_ ?_ sig hrest
              · simp [enterHandler, hstack]
              · intro x hx
                simp only [enterHandler, Finset.mem_union]
                exact Or.inl (Or.inl (hB hx))
              · intro fr hfr
                rcases List.mem_cons.mp hfr with heq | hmem
                · rw [heq]; exact hB
                · exact htop fr hmem
      · rw [if_neg hguard] at hsig
        exact ih top c hstack hB htop sig hsig
    | handlerReturn =>
      simp only [deliveredWhile, step] at hsig
      cases hc : c.stack with
      | nil =>
        rw [hc] at hsig
        exact ih top c hstack hB htop sig hsig
      | cons fr rest =>
        rw [hc] at hsig
        simp only at hsig
        split_ifs at hsig with hlen
        · simp at hsig
        · cases top with
          | nil =>
            exfalso
            rw [hc, List.nil_append] at hstack
            have hl := congrArg List.length hstack
            simp only [List.length_cons] at hl
            omega
          | cons fr1 top1 =>
            rw [hc, List.cons_append] at hstack
            obtain ⟨h1, h2⟩ := List.cons.inj hstack
            refine ih top1 _ h2 ?_ ?_ sig hsig
            · show B ⊆ fr.saved
              rw [h1]
              exact htop fr1 (List.mem_cons_self _ _)
            · exact fun fr2 h => htop fr2 (List.mem_cons_of_mem _ h)

theorem procAfterInstall_blocked (p : Platform) (st : State) (X : Int) (func : pqsigfunc)
    (pend : sigset_t) (stk : List Frame)
    (hwin : p.WIN32 = false) (hok : p.sigactionAccepts X = true) :
    (procAfterInstall p st X func pend stk).st.blocked = st.blocked := by
  simp only [procAfterInstall]
  rw [pqsignal_pm_accepted p X func _ hwin hok]
  rfl

theorem procAfterInstall_mask (p : Platform) (st : State) (X : Int) (func : pqsigfunc)
    (pend : sigset_t) (stk : List Frame)
    (hwin : p.WIN32 = false) (hok : p.sigactionAccepts X = true)
    (hign : func ≠ pqsigfunc.SIG_IGN) (hdfl : func ≠ pqsigfunc.SIG_DFL) :
    ((procAfterInstall p st X func pend stk).st.actions X).sa_mask =
      (pqinitmask p st).BlockSig \ p.unblockable := by
  have hkind : ¬(func = pqsigfunc.SIG_IGN ∨ func = pqsigfunc.SIG_DFL) := by tauto
  simp only [procAfterInstall]
  rw [pqsignal_pm_installed p X func _ hwin hok, storedAction_mask, pqsignal_pm_act_mask,
    if_neg hkind]

theorem procAfterInstall_handler (p : Platform) (st : State) (X : Int) (func : pqsigfunc)
    (pend : sigset_t) (stk : List Frame)
    (hwin : p.WIN32 = false) (hok : p.sigactionAccepts X = true) :
    ((procAfterInstall p st X func pend stk).st.actions X).sa_handler = func := by
  simp only [procAfterInstall]
  rw [pqsignal_pm_installed p X func _ hwin hok, storedAction_handler,
    pqsignal_pm_act_handler]

theorem procAfterInstall_selfBlocked (p : Platform) (st : State) (X : Int)
    (func : pqsigfunc) (pend : sigset_t) (stk : List Frame)
    (hwin : p.WIN32 = false) (hok : p.sigactionAccepts X = true)
    (hign : func ≠ pqsigfunc.SIG_IGN) (hdfl : func ≠ pqsigfunc.SIG_DFL)
    (hnd : p.noDeferBitsDistinct) :
    selfBlocked p ((procAfterInstall p st X func pend stk).st.actions X) X = {X} := by
  have hkind : ¬(func = pqsigfunc.SIG_IGN ∨ func = pqsigfunc.SIG_DFL) := by tauto
  obtain ⟨hne, hadd, hncs⟩ := hnd
  have hzero : ((procAfterInstall p st X func pend stk).st.actions X).sa_flags &&&
      p.SA_NODEFER = 0 := by
    simp only [procAfterInstall]
    rw [pqsignal_pm_installed p X func _ hwin hok, storedAction_flags, pqsignal_pm_act_flags]
    apply or_land_zero _ _ _ _ hadd
    cases hf : p.SA_NOCLDSTOP with
    | none => simp [if_neg hkind]
    | some f =>
      have hdis : f &&& p.SA_NODEFER = 0 := hncs f (by simp [hf])
      by_cases hc : X = p.SIGCHLD <;> simp [hc, hdis, if_neg hkind]
  have hns : ¬ flagSet ((procAfterInstall p st X func pend stk).st.actions X).sa_flags
      p.SA_NODEFER := by
    unfold flagSet
    rw [hzero]
    exact fun h => hne h.symm
  unfold selfBlocked
  exact if_neg hns

/-- C11 (as amended): in the step model, after `pqinitmask` and a successful
`pqsignal_pm(X, func)` with a real callback, a pending unblocked `X` is
delivered and starts the handler; while that handler is executing, the blocked
set holds `BlockSig` without the signals the kernel never blocks, and `X`; a
delivered signal that is a member of `BlockSig` is one the kernel never
blocks, and no delivered signal is `X` itself, whatever is raised meanwhile. -/
theorem handler_not_reentered (p : Platform) (st : State) (X : Int) (func : pqsigfunc)
    (pend : sigset_t) (stk : List Frame) (evs : List Event)
    (hwin : p.WIN32 = false) (hok : p.sigactionAccepts X = true)
    (hign : func ≠ pqsigfunc.SIG_IGN) (hdfl : func ≠ pqsigfunc.SIG_DFL)
    (hnd : p.noDeferBitsDistinct)
    (hpend : X ∈ pend) (hunb : X ∉ st.blocked) :
    step p (procAfterInstall p st X func pend stk) (Event.deliver X) =
        some (enterHandler p (procAfterInstall p st X func pend stk) X) ∧
      (enterHandler p (procAfterInstall p st X func pend stk) X).st.blocked =
        st.blocked ∪ ((pqinitmask p st).BlockSig \ p.unblockable) ∪ {X} ∧
      ∀ sig ∈ deliveredWhile p (stk.length + 1)
          (enterHandler p (procAfterInstall p st X func pend stk) X) evs,
        (sig ∈ (pqinitmask p st).BlockSig → sig ∈ p.unblockable) ∧ sig ≠ X := by
  have hkind : ¬(func = pqsigfunc.SIG_IGN ∨ func = pqsigfunc.SIG_DFL) := by tauto
  have hb := procAfterInstall_blocked p st X func pend stk hwin hok
  have hm := procAfterInstall_mask p st X func pend stk hwin hok hign hdfl
  have hh := procAfterInstall_handler p st X func pend stk hwin hok
  have hs := procAfterInstall_selfBlocked p st X func pend stk hwin hok hign hdfl hnd
  have hblocked : (enterHandler p (procAfterInstall p st X func pend stk) X).st.blocked =
      st.blocked ∪ ((pqinitmask p st).BlockSig \ p.unblockable) ∪ {X} := by
    simp only [enterHandler, hm, hb, hs]
  have hsub : ((pqinitmask p st).BlockSig \ p.unblockable) ∪ {X} ⊆
      (enterHandler p (procAfterInstall p st X func pend stk) X).st.blocked := by
    rw [hblocked]
    intro x hx
    simp only [Finset.mem_union] at hx ⊢
    tauto
  refine ⟨?_, hblocked, fun sig hsig => ?_⟩
  · have hguard : X ∈ (procAfterInstall p st X func pend stk).pending ∧
        X ∉ (procAfterInstall p st X func pend stk).st.blocked := by
      rw [hb]
      exact ⟨hpend, hunb⟩
    simp only [step]
    rw [if_pos hguard, hh, if_neg hkind]
  · have hnot := deliveredWhile_not_blocked p
      (((pqinitmask p st).BlockSig \ p.unblockable) ∪ {X})
      (enterHandler p (procAfterInstall p st X func pend stk) X).stack evs []
      (enterHandler p (procAfterInstall p st X func pend stk) X) rfl hsub
      (fun fr hfr => absurd hfr (List.not_mem_nil fr)) sig hsig
    simp only [Finset.mem_union, Finset.mem_sdiff, Finset.mem_singleton, not_or, not_and,
      not_not] at hnot
    exact hnot

theorem handler_not_reentered_witness :
    linux.WIN32 = false ∧ linux.sigactionAccepts 3 = true ∧
      pqsigfunc.handler 4096 ≠ pqsigfunc.SIG_IGN ∧
      pqsigfunc.handler 4096 ≠ pqsigfunc.SIG_DFL ∧ linux.noDeferBitsDistinct ∧
      (3 : Int) ∈ ({3} : sigset_t) ∧ (3 : Int) ∉ freshState.blocked ∧
      (step linux (procAfterInstall linux freshState 3 (pqsigfunc.handler 4096) {3} [])
          (Event.deliver 3) =
          some (enterHandler linux
            (procAfterInstall linux freshState 3 (pqsigfunc.handler 4096) {3} []) 3) ∧
        (enterHandler linux
            (procAfterInstall linux freshState 3 (pqsigfunc.handler 4096) {3} [])
            3).st.blocked =
          freshState.blocked ∪
            ((pqinitmask linux freshState).BlockSig \ linux.unblockable) ∪ {3} ∧
        ∀ sig ∈ deliveredWhile linux (([] : List Frame).length + 1)
            (enterHandler linux
              (procAfterInstall linux freshState 3 (pqsigfunc.handler 4096) {3} []) 3)
            samplePlay,
          (sig ∈ (pqinitmask linux freshState).BlockSig → sig ∈ linux.unblockable) ∧
            sig ≠ 3) :=
  ⟨rfl, by decide, by decide, by decide, by decide, by decide, by decide,
    handler_not_reentered linux freshState 3 (pqsigfunc.handler 4096) {3} [] samplePlay
      rfl (by decide) (by decide) (by decide) (by decide) (by decide) (by decide)⟩

/-- C11 (as stated) fails: on Linux, while the handler that `pqsignal_pm`
installed for SIGQUIT is executing, SIGKILL, a member of `BlockSig`, is
delivered, and `BlockSig` is not a subset of the blocked set. -/
theorem handler_blocksig_delivery_counterexample :
    (9 : Int) ∈ (pqinitmask linux freshState).BlockSig ∧
      (9 : Int) ∈ deliveredWhile linux 1
        (enterHandler linux
          (procAfterInstall linux freshState 3 (pqsigfunc.handler 4096) {3} []) 3)
        samplePlay ∧
      ¬ (pqinitmask linux freshState).BlockSig ⊆
        (enterHandler linux
          (procAfterInstall linux freshState 3 (pqsigfunc.handler 4096) {3} [])
          3).st.blocked := by
  decide

theorem samplePlay_delivered :
    deliveredWhile linux 1
      (enterHandler linux
        (procAfterInstall linux freshState 3 (pqsigfunc.handler 4096) {3} []) 3)
      samplePlay = [11, 9] := by
  decide

/-- C12: after `pqinitmask`, the action installed by a successful
`pqsignal_pm(X, func)` with a real callback has a handler mask that contains
none of the defined exclusion-list signals; entering the handler therefore
blocks such a signal only if it was blocked before or is `X` itself. -/
theorem handler_mask_excludes_exclusionList (p : Platform) (st : State) (X : Int)
    (func : pqsigfunc) (S : Int)
    (hwin : p.WIN32 = false) (hok : p.sigactionAccepts X = true)
    (hign : func ≠ pqsigfunc.SIG_IGN) (hdfl : func ≠ pqsigfunc.SIG_DFL)
    (hS : S ∈ exclusionList p) :
    S ∉ ((pqsignal_pm p X func (pqinitmask p st)).2.actions X).sa_mask ∧
      ∀ (pend : sigset_t) (stk : List Frame),
        S ∈ (enterHandler p (procAfterInstall p st X func pend stk) X).st.blocked →
          S ∈ st.blocked ∨ S = X := by
  have hkind : ¬(func = pqsigfunc.SIG_IGN ∨ func = pqsigfunc.SIG_DFL) := by tauto
  have hnot : S ∉ (pqinitmask p st).BlockSig := by
    rw [mem_pqinitmask_BlockSig]
    tauto
  refine ⟨?_, fun pend stk hmem => ?_⟩
  · rw [pqsignal_pm_installed p X func _ hwin hok, storedAction_mask, pqsignal_pm_act_mask,
      if_neg hkind, Finset.mem_sdiff]
    exact fun h => hnot h.1
  · have hb := procAfterInstall_blocked p st X func pend stk hwin hok
    have hm := procAfterInstall_mask p st X func pend stk hwin hok hign hdfl
    simp only [enterHandler, hm, hb, Finset.mem_union, Finset.mem_sdiff] at hmem
    rcases hmem with (h | h) | h
    · exact Or.inl h
    · exact absurd h.1 hnot
    · unfold selfBlocked at h
      split_ifs at h
      · simp at h
      · exact Or.inr (Finset.mem_singleton.mp h)

theorem handler_mask_excludes_exclusionList_witness :
    linux.WIN32 = false ∧ linux.sigactionAccepts 3 = true ∧
      pqsigfunc.handler 4096 ≠ pqsigfunc.SIG_IGN ∧
      pqsigfunc.handler 4096 ≠ pqsigfunc.SIG_DFL ∧ (11 : Int) ∈ exclusionList linux ∧
      ((11 : Int) ∉ ((pqsignal_pm linux 3 (pqsigfunc.handler 4096)
          (pqinitmask linux freshState)).2.actions 3).sa_mask ∧
        ∀ (pend : sigset_t) (stk : List Frame),
          (11 : Int) ∈ (enterHandler linux
              (procAfterInstall linux freshState 3 (pqsigfunc.handler 4096) pend stk)
              3).st.blocked →
            (11 : Int) ∈ freshState.blocked ∨ (11 : Int) = 3) :=
  ⟨rfl, by decide, by decide, by decide, by decide,
    handler_mask_excludes_exclusionList linux freshState 3 (pqsigfunc.handler 4096) 11
      rfl (by decide) (by decide) (by decide) (by decide)⟩

/-- C13: `pqinitmask` only assigns the three mask variables: for every state,
the blocked set of the process and the installed action of every signal are
the same after `pqinitmask` as before it. -/
theorem pqinitmask_frame (p : Platform) (st : State) :
    (pqinitmask p st).blocked = st.blocked ∧
      (pqinitmask p st).actions = st.actions ∧
      (∀ sig : Int, (pqinitmask p st).actions sig = st.actions sig) ∧
      pqinitmask p st =
        { st with
          UnBlockSig := (pqinitmask p st).UnBlockSig
          BlockSig := (pqinitmask p st).BlockSig
          StartupBlockSig := (pqinitmask p st).StartupBlockSig } :=
  ⟨rfl, rfl, fun _ => rfl, rfl⟩

/-- C14: on the WIN32 platform, for every `signo` and `func`,
`pqsignal_pm(signo, func)` returns exactly what `pqsignal(signo, func)` returns
and has exactly its effect, whatever `BlockSig` holds and whatever the flag
and signal constants of the platform are. -/
theorem pqsignal_pm_win32 (p : Platform) (signo : Int) (func : pqsigfunc) (st : State)
    (hwin : p.WIN32 = true) :
    pqsignal_pm p signo func st = p.pqsignal signo func st ∧
      (∀ B : sigset_t,
        pqsignal_pm p signo func { st with BlockSig := B } =
          p.pqsignal signo func { st with BlockSig := B }) ∧
      (∀ q : Platform, q.WIN32 = true → q.pqsignal = p.pqsignal →
        pqsignal_pm q signo func st = pqsignal_pm p signo func st) := by
  have hall : ∀ (r : Platform) (s : State), r.WIN32 = true →
      pqsignal_pm r signo func s = r.pqsignal signo func s := by
    intro r s hr
    simp [pqsignal_pm, hr]
  refine ⟨hall p st hwin, fun B => hall p _ hwin, fun q hq hsame => ?_⟩
  rw [hall q st hq, hall p st hwin, hsame]

theorem pqsignal_pm_win32_witness :
    win32.WIN32 = true ∧
      (pqsignal_pm win32 15 (pqsigfunc.handler 4096) (pqinitmask win32 freshState) =
          win32.pqsignal 15 (pqsigfunc.handler 4096) (pqinitmask win32 freshState) ∧
        (∀ B : sigset_t,
          pqsignal_pm win32 15 (pqsigfunc.handler 4096)
              { pqinitmask win32 freshState with BlockSig := B } =
            win32.pqsignal 15 (pqsigfunc.handler 4096)
              { pqinitmask win32 freshState with BlockSig := B }) ∧
        (∀ q : Platform, q.WIN32 = true → q.pqsignal = win32.pqsignal →
          pqsignal_pm q 15 (pqsigfunc.handler 4096) (pqinitmask win32 freshState) =
            pqsignal_pm win32 15 (pqsigfunc.handler 4096) (pqinitmask win32 freshState))) :=
  ⟨rfl, pqsignal_pm_win32 win32 15 (pqsigfunc.handler 4096) (pqinitmask win32 freshState) rfl⟩

theorem pqsignal_pm_act_eq (p : Platform) (signo : Int) (func : pqsigfunc) (st : State) :
    pqsignal_pm_act p signo func st =
      { sa_handler := func
        sa_mask :=
          if func = pqsigfunc.SIG_IGN ∨ func = pqsigfunc.SIG_DFL then sigemptyset
          else st.BlockSig
        sa_flags := specFlags p signo func } := by
  unfold pqsignal_pm_act specFlags
  cases p.SA_NOCLDSTOP <;> simp only <;> split_ifs <;> rfl

/-- C15: on a non-WIN32 platform, `pqsignal_pm(signo, func)` is the call of
`sigaction` on an action whose flags word is the one determined by
`(func, signo)`: `SA_RESTART` for `SIG_IGN` and `SIG_DFL` and `0` otherwise,
OR-ed with `SA_NOCLDSTOP` exactly when that flag is defined and `signo` is
`SIGCHLD`; the stored flags are that word with the bits the platform adds.  In
that word `SA_NOCLDSTOP` is unset for every signal other than `SIGCHLD`, and
any flag sharing no bit with `SA_RESTART` and `SA_NOCLDSTOP` is unset. -/
theorem pqsignal_pm_flags_determined (p : Platform) (signo : Int) (func : pqsigfunc)
    (st : State) (hwin : p.WIN32 = false) (hbits : p.flagBitsDistinct) :
    pqsignal_pm p signo func st =
        (match sigaction p signo
            { sa_handler := func
              sa_mask :=
                if func = pqsigfunc.SIG_IGN ∨ func = pqsigfunc.SIG_DFL then sigemptyset
                else st.BlockSig
              sa_flags := specFlags p signo func } st with
          | none => (pqsigfunc.SIG_ERR, st)
          | some (oact, st1) => (oact.sa_handler, st1)) ∧
      (p.sigactionAccepts signo = true →
        ((pqsignal_pm p signo func st).2.actions signo).sa_flags =
          specFlags p signo func ||| p.addedFlags) ∧
      (∀ noCldStop : Nat, p.SA_NOCLDSTOP = some noCldStop → signo ≠ p.SIGCHLD →
        flagUnset (specFlags p signo func) noCldStop) ∧
      (∀ other : Nat, p.SA_RESTART &&& other = 0 →
        (∀ noCldStop ∈ p.SA_NOCLDSTOP, noCldStop &&& other = 0) →
        flagUnset (specFlags p signo func) other) := by
  have hrestart : ∀ other : Nat, p.SA_RESTART &&& other = 0 →
      (if func = pqsigfunc.SIG_IGN ∨ func = pqsigfunc.SIG_DFL then p.SA_RESTART else 0) &&&
        other = 0 := by
    intro other h
    split_ifs
    · exact h
    · exact Nat.zero_and other
  refine ⟨?_, fun hok => ?_, ?_, ?_⟩
  · rw [← pqsignal_pm_act_eq]
    simp [pqsignal_pm, hwin]
  · rw [pqsignal_pm_installed p signo func st hwin hok, storedAction_flags,
      pqsignal_pm_act_eq]
  · intro f hf hne
    have hdis : f &&& p.SA_RESTART = 0 := hbits f (by simp [hf])
    unfold flagUnset specFlags
    simp only [hf, if_neg hne]
    exact hrestart f (by rw [Nat.and_comm]; exact hdis)
  · intro other hr hn
    unfold flagUnset specFlags
    cases hf : p.SA_NOCLDSTOP with
    | none => exact hrestart other hr
    | some f =>
      simp only
      by_cases hc : signo = p.SIGCHLD
      · rw [if_pos hc]
        exact or_land_zero _ _ _ (hrestart other hr) (hn f (by simp [hf]))
      · rw [if_neg hc]
        exact hrestart other hr

theorem pqsignal_pm_flags_determined_witness :
    linux.WIN32 = false ∧ linux.flagBitsDistinct ∧
      (pqsignal_pm linux 15 pqsigfunc.SIG_IGN (pqinitmask linux freshState) =
          (match sigaction linux 15
              { sa_handler := pqsigfunc.SIG_IGN
                sa_mask :=
                  if pqsigfunc.SIG_IGN = pqsigfunc.SIG_IGN ∨ pqsigfunc.SIG_IGN = pqsigfunc.SIG_DFL then sigemptyset
                  else (pqinitmask linux freshState).BlockSig
                sa_flags := specFlags linux 15 pqsigfunc.SIG_IGN } (pqinitmask linux freshState) with
            | none => (pqsigfunc.SIG_ERR, (pqinitmask linux freshState))
            | some (oact, st1) => (oact.sa_handler, st1)) ∧
        (linux.sigactionAccepts 15 = true →
          ((pqsignal_pm linux 15 pqsigfunc.SIG_IGN (pqinitmask linux freshState)).2.actions 15).sa_flags =
            specFlags linux 15 pqsigfunc.SIG_IGN ||| linux.addedFlags) ∧
        (∀ noCldStop : Nat, linux.SA_NOCLDSTOP = some noCldStop → 15 ≠ linux.SIGCHLD →
          flagUnset (specFlags linux 15 pqsigfunc.SIG_IGN) noCldStop) ∧
        (∀ other : Nat, linux.SA_RESTART &&& other = 0 →
          (∀ noCldStop ∈ linux.SA_NOCLDSTOP, noCldStop &&& other = 0) →
          flagUnset (specFlags linux 15 pqsigfunc.SIG_IGN) other)) ∧
      ((pqsignal_pm linux 15 pqsigfunc.SIG_IGN (pqinitmask linux freshState)).2.actions
          15).sa_flags = specFlags linux 15 pqsigfunc.SIG_IGN ||| linux.addedFlags ∧
      flagUnset (specFlags linux 15 pqsigfunc.SIG_IGN) 1 ∧
      flagUnset (specFlags linux 15 pqsigfunc.SIG_IGN) linux.SA_NODEFER ∧
      (pqsignal_pm linux 17 (pqsigfunc.handler 4096) (pqinitmask linux freshState) =
          (match sigaction linux 17
              { sa_handler := (pqsigfunc.handler 4096)
                sa_mask :=
                  if (pqsigfunc.handler 4096) = pqsigfunc.SIG_IGN ∨ (pqsigfunc.handler 4096) = pqsigfunc.SIG_DFL then sigemptyset
                  else (pqinitmask linux freshState).BlockSig
                sa_flags := specFlags linux 17 (pqsigfunc.handler 4096) } (pqinitmask linux freshState) with
            | none => (pqsigfunc.SIG_ERR, (pqinitmask linux freshState))
            | some (oact, st1) => (oact.sa_handler, st1)) ∧
        (linux.sigactionAccepts 17 = true →
          ((pqsignal_pm linux 17 (pqsigfunc.handler 4096) (pqinitmask linux freshState)).2.actions 17).sa_flags =
            specFlags linux 17 (pqsigfunc.handler 4096) ||| linux.addedFlags) ∧
        (∀ noCldStop : Nat, linux.SA_NOCLDSTOP = some noCldStop → 17 ≠ linux.SIGCHLD →
          flagUnset (specFlags linux 17 (pqsigfunc.handler 4096)) noCldStop) ∧
        (∀ other : Nat, linux.SA_RESTART &&& other = 0 →
          (∀ noCldStop ∈ linux.SA_NOCLDSTOP, noCldStop &&& other = 0) →
          flagUnset (specFlags linux 17 (pqsigfunc.handler 4096)) other)) :=
  ⟨rfl, by decide,
    pqsignal_pm_flags_determined linux 15 pqsigfunc.SIG_IGN (pqinitmask linux freshState)
      rfl (by decide),
    (pqsignal_pm_flags_determined linux 15 pqsigfunc.SIG_IGN (pqinitmask linux freshState)
      rfl (by decide)).2.1 (by decide),
    (pqsignal_pm_flags_determined linux 15 pqsigfunc.SIG_IGN (pqinitmask linux freshState)
      rfl (by decide)).2.2.1 1 rfl (by decide),
    (pqsignal_pm_flags_determined linux 15 pqsigfunc.SIG_IGN (pqinitmask linux freshState)
      rfl (by decide)).2.2.2 linux.SA_NODEFER (by decide) (by decide),
    pqsignal_pm_flags_determined linux 17 (pqsigfunc.handler 4096)
      (pqinitmask linux freshState) rfl (by decide)⟩

/-- C16: on a non-WIN32 platform, a successful `pqsignal_pm(signo, func)`
changes only the installed action of `signo`: the three masks and the blocked
set are unchanged, the installed action of every other signal is unchanged,
and the action of `signo` becomes one whose handler is `func`. -/
theorem pqsignal_pm_frame (p : Platform) (signo : Int) (func : pqsigfunc) (st : State)
    (hwin : p.WIN32 = false) (hok : p.sigactionAccepts signo = true) :
    (pqsignal_pm p signo func st).2.UnBlockSig = st.UnBlockSig ∧
      (pqsignal_pm p signo func st).2.BlockSig = st.BlockSig ∧
      (pqsignal_pm p signo func st).2.StartupBlockSig = st.StartupBlockSig ∧
      (pqsignal_pm p signo func st).2.blocked = st.blocked ∧
      (∀ sig : Int, sig ≠ signo →
        (pqsignal_pm p signo func st).2.actions sig = st.actions sig) ∧
      ((pqsignal_pm p signo func st).2.actions signo).sa_handler = func := by
  refine ⟨?_, ?_, ?_, ?_, fun sig hne => ?_, ?_⟩
  · rw [pqsignal_pm_accepted p signo func st hwin hok]
  · rw [pqsignal_pm_accepted p signo func st hwin hok]
  · rw [pqsignal_pm_accepted p signo func st hwin hok]
  · rw [pqsignal_pm_accepted p signo func st hwin hok]
  · rw [pqsignal_pm_accepted p signo func st hwin hok]
    exact Function.update_noteq hne _ _
  · rw [pqsignal_pm_installed p signo func st hwin hok, storedAction_handler,
      pqsignal_pm_act_handler]

theorem pqsignal_pm_frame_witness :
    linux.WIN32 = false ∧ linux.sigactionAccepts 15 = true ∧
      ((pqsignal_pm linux 15 (pqsigfunc.handler 4096)
          (pqinitmask linux freshState)).2.UnBlockSig =
          (pqinitmask linux freshState).UnBlockSig ∧
        (pqsignal_pm linux 15 (pqsigfunc.handler 4096)
          (pqinitmask linux freshState)).2.BlockSig =
          (pqinitmask linux freshState).BlockSig ∧
        (pqsignal_pm linux 15 (pqsigfunc.handler 4096)
          (pqinitmask linux freshState)).2.StartupBlockSig =
          (pqinitmask linux freshState).StartupBlockSig ∧
        (pqsignal_pm linux 15 (pqsigfunc.handler 4096)
          (pqinitmask linux freshState)).2.blocked =
          (pqinitmask linux freshState).blocked ∧
        (∀ sig : Int, sig ≠ 15 →
          (pqsignal_pm linux 15 (pqsigfunc.handler 4096)
            (pqinitmask linux freshState)).2.actions sig =
            (pqinitmask linux freshState).actions sig) ∧
        ((pqsignal_pm linux 15 (pqsigfunc.handler 4096)
          (pqinitmask linux freshState)).2.actions 15).sa_handler =
          pqsigfunc.handler 4096) :=
  ⟨rfl, by decide,
    pqsignal_pm_frame linux 15 (pqsigfunc.handler 4096) (pqinitmask linux freshState)
      rfl (by decide)⟩

end PqSignal
